import Mathlib

/-!
Verification of the sticky-notes board component (`src/components/Notes.tsx`).

The component is a single React widget holding an ordered list of note records
plus a running maximum-z-index counter.  All state updates are synchronous pure
transformations of that state, so we embed them shallowly: the notes list and
the counter become a `Board` structure, each handler becomes a pure function on
it, and the nondeterministic inputs of the handlers (`Date.now()`,
`Math.random()`, pointer coordinates, the container rectangle) become explicit
parameters.  Numbers are modelled as `ℚ` (JS numbers on the values this program
produces), z-indexes and the counter as `ℤ`.

Persistence (`localStorage` + `JSON.parse`/`JSON.stringify`) is modelled with a
JSON value type `JVal`, an executable JSON string parser `parseJson`
(modelling `JSON.parse`, which either returns a parsed value or throws), and an
encoding `notesToJVal` of the notes list as the JSON value that
`JSON.stringify` renders.
-/

namespace StickyNotes

/-- The `Note` record (`Notes.tsx` lines 4–13): id, content, position,
size, color and stacking order. -/
structure Note where
  id : String
  content : String
  x : ℚ
  y : ℚ
  width : ℚ
  height : ℚ
  color : String
  zIndex : ℤ
deriving DecidableEq

/-- The fixed 8-color palette (`Notes.tsx` lines 20–29). -/
def COLORS : List String :=
  ["#FFE066", "#FF6B6B", "#4ECDC4", "#45B7D1",
   "#96CEB4", "#FFEAA7", "#DDA0DD", "#98D8C8"]

/-- The component's mutable state relevant to the note collection: the
`notes` list (`useState<Note[]>`) and the `maxZIndex` counter
(`useState(100)`, `Notes.tsx` line 45). -/
structure Board where
  notes : List Note
  maxZIndex : ℤ
deriving DecidableEq

/-- The color chosen by `COLORS[Math.floor(Math.random() * COLORS.length)]`
(`Notes.tsx` line 115), with the `Math.random()` draw `r` passed in. -/
def pickColor (r : ℚ) : String :=
  COLORS.getD (Int.floor (r * (COLORS.length : ℚ))).toNat ""

/-- `addNote` (`Notes.tsx` lines 107–120): builds a new note from
`Date.now()` (parameter `now`) and three `Math.random()` draws
(`r1` for x, `r2` for y, `r3` for the color), appends it to the list and
increments the counter. -/
def addNote (b : Board) (now : ℕ) (r1 r2 r3 : ℚ) : Board :=
  let newNote : Note :=
    { id := toString now
      content := "New note..."
      x := r1 * 300
      y := r2 * 200
      width := 200
      height := 200
      color := pickColor r3
      zIndex := b.maxZIndex + 1 }
  { notes := b.notes ++ [newNote], maxZIndex := b.maxZIndex + 1 }

/-- `deleteNote` (`Notes.tsx` lines 122–124): removes every note whose id
matches. -/
def deleteNote (b : Board) (id : String) : Board :=
  { b with notes := b.notes.filter (fun note => note.id ≠ id) }

/-- `updateNoteContent` (`Notes.tsx` lines 126–130). -/
def updateNoteContent (b : Board) (id content : String) : Board :=
  { b with notes :=
      b.notes.map (fun note => if note.id = id then { note with content := content } else note) }

/-- `updateNoteColor` (`Notes.tsx` lines 132–136). -/
def updateNoteColor (b : Board) (id color : String) : Board :=
  { b with notes :=
      b.notes.map (fun note => if note.id = id then { note with color := color } else note) }

/-- `bringToFront` (`Notes.tsx` lines 138–146): gives the matching note
z-index `maxZIndex + 1` and stores that value as the new counter. -/
def bringToFront (b : Board) (id : String) : Board :=
  let newZIndex := b.maxZIndex + 1
  { notes := b.notes.map (fun note => if note.id = id then { note with zIndex := newZIndex } else note)
    maxZIndex := newZIndex }

/-- `clearAllNotes` (`Notes.tsx` lines 168–170). -/
def clearAllNotes (b : Board) : Board :=
  { b with notes := [] }

/-- The drag-tracking state (`Notes.tsx` lines 46–54). -/
structure DragState where
  isDragging : Bool
  noteId : Option String
  offset : ℚ × ℚ
deriving DecidableEq

/-- `handleMouseMove` (`Notes.tsx` lines 65–84): while a drag is active and a
container rectangle is available, moves the dragged note to the pointer
position minus the container origin minus the recorded grab offset, each
coordinate clamped with `Math.max(0, ·)`; other notes are left as they are.
When no drag is active, the dragged id is `null`, or the container rectangle
is unavailable, the handler returns without changing the list. -/
def handleMouseMove (ds : DragState) (containerRect : Option (ℚ × ℚ))
    (clientX clientY : ℚ) (notes : List Note) : List Note :=
  if ds.isDragging = false then notes
  else
    match ds.noteId with
    | none => notes
    | some nid =>
      match containerRect with
      | none => notes
      | some (left, top) =>
        let newX := clientX - left - ds.offset.1
        let newY := clientY - top - ds.offset.2
        notes.map (fun note =>
          if note.id = nid then { note with x := max 0 newX, y := max 0 newY } else note)

/-- One user-triggered mutation of the board, with the handlers'
nondeterministic inputs made explicit. -/
inductive Op where
  | add (now : ℕ) (r1 r2 r3 : ℚ)
  | del (id : String)
  | editContent (id : String) (content : String)
  | setColor (id : String) (color : String)
  | toFront (id : String)
  | clearAll
  | dragMove (ds : DragState) (rect : Option (ℚ × ℚ)) (clientX clientY : ℚ)

/-- Apply one operation to the board through the corresponding handler. -/
def applyOp (b : Board) : Op → Board
  | .add now r1 r2 r3 => addNote b now r1 r2 r3
  | .del id => deleteNote b id
  | .editContent id content => updateNoteContent b id content
  | .setColor id color => updateNoteColor b id color
  | .toFront id => bringToFront b id
  | .clearAll => clearAllNotes b
  | .dragMove ds rect cx cy => { b with notes := handleMouseMove ds rect cx cy b.notes }

/-- Run a sequence of operations from a starting board. -/
def run (b : Board) (ops : List Op) : Board :=
  ops.foldl applyOp b

/-- The id the operation would create, if it is a create
(`Date.now().toString()`, `Notes.tsx` line 109). -/
def Op.addedId : Op → Option String
  | .add now _ _ _ => some (toString now)
  | _ => none

/-- The id the operation deletes, if it is a delete. -/
def Op.deletedId : Op → Option String
  | .del id => some id
  | _ => none

/-- Whether the operation is a create or a delete. -/
def Op.isCD : Op → Bool
  | .add _ _ _ _ => true
  | .del _ => true
  | _ => false

/-- Ids of the notes created by a sequence of operations, in order. -/
def createdIdList (ops : List Op) : List String :=
  ops.filterMap Op.addedId

/-- Ids passed to delete by a sequence of operations, in order. -/
def deletedIdList (ops : List Op) : List String :=
  ops.filterMap Op.deletedId

/-- Set of ids created by a sequence of operations. -/
def createdIdSet (ops : List Op) : Finset String :=
  (createdIdList ops).toFinset

/-- Set of ids passed to delete by a sequence of operations. -/
def deletedIdSet (ops : List Op) : Finset String :=
  (deletedIdList ops).toFinset

/-- A JSON value, the possible results of `JSON.parse`. -/
inductive JVal where
  | null
  | bool (b : Bool)
  | num (q : ℚ)
  | str (s : String)
  | arr (elems : List JVal)
  | obj (fields : List (String × JVal))

/-- The opening-brace character, written by code point to keep it out of
string literals. -/
def lbrace : Char := Char.ofNat 123

/-- The closing-brace character, written by code point. -/
def rbrace : Char := Char.ofNat 125

/-- Skip JSON whitespace. -/
def skipWs : List Char → List Char
  | c :: cs => if c = ' ' ∨ c = '\t' ∨ c = '\n' ∨ c = '\r' then skipWs cs else c :: cs
  | [] => []

/-- Read a maximal run of decimal digits, returning the accumulated value,
the number of digits read, and the rest of the input. -/
def parseDigits : List Char → ℕ → ℕ → ℕ × ℕ × List Char
  | c :: cs, acc, cnt =>
    if c.isDigit then parseDigits cs (acc * 10 + (c.toNat - '0'.toNat)) (cnt + 1)
    else (acc, cnt, c :: cs)
  | [], acc, cnt => (acc, cnt, [])

/-- Read the body of a JSON string after the opening quote, handling the
common escapes. -/
def parseStringBody : List Char → List Char → Option (String × List Char)
  | [], _ => none
  | '\\' :: [], _ => none
  | '\\' :: e :: cs', acc =>
    if e = '"' then parseStringBody cs' ('"' :: acc)
    else if e = '\\' then parseStringBody cs' ('\\' :: acc)
    else if e = '/' then parseStringBody cs' ('/' :: acc)
    else if e = 'n' then parseStringBody cs' ('\n' :: acc)
    else if e = 't' then parseStringBody cs' ('\t' :: acc)
    else if e = 'r' then parseStringBody cs' ('\r' :: acc)
    else none
  | c :: cs, acc =>
    if c = '"' then some (String.mk acc.reverse, cs)
    else parseStringBody cs (c :: acc)

/-- Read a JSON exponent part (after the `e`/`E`), scaling the mantissa. -/
def parseExp (mant : ℚ) (cs : List Char) : Option (ℚ × List Char) :=
  let p : Bool × List Char :=
    match cs with
    | '-' :: rest => (true, rest)
    | '+' :: rest => (false, rest)
    | _ => (false, cs)
  match parseDigits p.2 0 0 with
  | (_, 0, _) => none
  | (ev, Nat.succ _, cs2) =>
    some (if p.1 then mant / (10 : ℚ) ^ ev else mant * (10 : ℚ) ^ ev, cs2)

/-- Read a JSON number. -/
def parseNumber (cs : List Char) : Option (ℚ × List Char) :=
  let p : Bool × List Char :=
    match cs with
    | '-' :: rest => (true, rest)
    | _ => (false, cs)
  match parseDigits p.2 0 0 with
  | (_, 0, _) => none
  | (ip, Nat.succ _, cs2) =>
    let fracRes : Option (ℚ × List Char) :=
      match cs2 with
      | '.' :: cs3 =>
        match parseDigits cs3 0 0 with
        | (_, 0, _) => none
        | (fv, Nat.succ k, cs4) => some ((ip : ℚ) + (fv : ℚ) / (10 : ℚ) ^ (k + 1), cs4)
      | _ => some ((ip : ℚ), cs2)
    match fracRes with
    | none => none
    | some (mant, cs5) =>
      let expRes : Option (ℚ × List Char) :=
        match cs5 with
        | 'e' :: cs6 => parseExp mant cs6
        | 'E' :: cs6 => parseExp mant cs6
        | _ => some (mant, cs5)
      match expRes with
      | none => none
      | some (q, cs7) => some (if p.1 then -q else q, cs7)

mutual

/-- Fuel-indexed JSON value parser. -/
def parseVal : ℕ → List Char → Option (JVal × List Char)
  | 0, _ => none
  | Nat.succ fuel, cs =>
    match skipWs cs with
    | 'n' :: 'u' :: 'l' :: 'l' :: rest => some (.null, rest)
    | 't' :: 'r' :: 'u' :: 'e' :: rest => some (.bool true, rest)
    | 'f' :: 'a' :: 'l' :: 's' :: 'e' :: rest => some (.bool false, rest)
    | '"' :: rest =>
      (match parseStringBody rest [] with
       | some (s, rest') => some (.str s, rest')
       | none => none)
    | '[' :: rest =>
      (match skipWs rest with
       | ']' :: rest' => some (.arr [], rest')
       | _ =>
         match parseArrayItems fuel rest with
         | some (vs, rest') => some (.arr vs, rest')
         | none => none)
    | c :: rest =>
      if c = lbrace then
        match skipWs rest with
        | [] => none
        | d :: rest' =>
          if d = rbrace then some (.obj [], rest')
          else
            match parseObjItems fuel rest with
            | some (fs, rest'') => some (.obj fs, rest'')
            | none => none
      else if c = '-' ∨ c.isDigit then
        match parseNumber (c :: rest) with
        | some (q, rest') => some (.num q, rest')
        | none => none
      else none
    | [] => none

/-- Fuel-indexed parser for the comma-separated items of a non-empty JSON
array, up to and including the closing bracket. -/
def parseArrayItems : ℕ → List Char → Option (List JVal × List Char)
  | 0, _ => none
  | Nat.succ fuel, cs =>
    match parseVal fuel cs with
    | none => none
    | some (v, rest) =>
      match skipWs rest with
      | ',' :: rest' =>
        (match parseArrayItems fuel rest' with
         | some (vs, r) => some (v :: vs, r)
         | none => none)
      | ']' :: rest' => some ([v], rest')
      | _ => none

/-- Fuel-indexed parser for the members of a non-empty JSON object, up to and
including the closing brace. -/
def parseObjItems : ℕ → List Char → Option (List (String × JVal) × List Char)
  | 0, _ => none
  | Nat.succ fuel, cs =>
    match skipWs cs with
    | '"' :: rest =>
      (match parseStringBody rest [] with
       | none => none
       | some (key, rest1) =>
         match skipWs rest1 with
         | ':' :: rest2 =>
           (match parseVal fuel rest2 with
            | none => none
            | some (v, rest3) =>
              match skipWs rest3 with
              | ',' :: rest4 =>
                (match parseObjItems fuel rest4 with
                 | some (fs, r) => some ((key, v) :: fs, r)
                 | none => none)
              | d :: rest4 =>
                if d = rbrace then some ([(key, v)], rest4) else none
              | [] => none)
         | _ => none)
    | _ => none

end

/-- `JSON.parse` as used by the hydration initializer: parse the whole
string as one JSON value; `none` models a thrown `SyntaxError`. -/
def parseJson (s : String) : Option JVal :=
  match parseVal (s.length + 1) s.toList with
  | some (v, rest) =>
    (match skipWs rest with
     | [] => some v
     | _ :: _ => none)
  | none => none

/-- The JSON value `JSON.stringify` produces for one note: an object with the
note's eight fields in declaration order (`Notes.tsx` lines 4–13, 59–62). -/
def noteToJVal (n : Note) : JVal :=
  .obj [("id", .str n.id), ("content", .str n.content), ("x", .num n.x),
        ("y", .num n.y), ("width", .num n.width), ("height", .num n.height),
        ("color", .str n.color), ("zIndex", .num (n.zIndex : ℚ))]

/-- The JSON value `JSON.stringify(notes)` renders: the array of the notes'
objects, in list order. -/
def notesToJVal (ns : List Note) : JVal :=
  .arr (ns.map noteToJVal)

/-- Look up a key in a JSON object's field list (first occurrence). -/
def jlookup (fields : List (String × JVal)) (key : String) : Option JVal :=
  (fields.find? (fun p => p.1 = key)).map (fun p => p.2)

/-- A rational as a JS integer, when exact. -/
def qToInt (q : ℚ) : Option ℤ :=
  if q.den = 1 then some q.num else none

/-- Read a `Note` record back from a JSON value: the semantic inverse of
`noteToJVal`, used to state that the persisted snapshot determines every
note field. -/
def noteFromJVal : JVal → Option Note
  | .obj fields =>
    match jlookup fields "id", jlookup fields "content", jlookup fields "x",
          jlookup fields "y", jlookup fields "width", jlookup fields "height",
          jlookup fields "color", jlookup fields "zIndex" with
    | some (.str id), some (.str content), some (.num x), some (.num y),
      some (.num width), some (.num height), some (.str color), some (.num z) =>
      (match qToInt z with
       | some zi => some ⟨id, content, x, y, width, height, color, zi⟩
       | none => none)
    | _, _, _, _, _, _, _, _ => none
  | _ => none

/-- Read a list of notes back from a list of JSON values. -/
def notesFromList : List JVal → Option (List Note)
  | [] => some []
  | v :: vs =>
    match noteFromJVal v, notesFromList vs with
    | some n, some ns => some (n :: ns)
    | _, _ => none

/-- Read a note collection back from a JSON value: the semantic inverse of
`notesToJVal`. -/
def notesFromJVal : JVal → Option (List Note)
  | .arr vs => notesFromList vs
  | _ => none

/-- The hydrated note collection (`Notes.tsx` lines 32–43), as the raw JS
value the initializer returns: if a non-empty string is stored, the result of
`JSON.parse` is returned unchecked; a parse failure, an absent entry, or an
empty (falsy) stored string falls back to the caller-supplied `initialNotes`. -/
def hydrateNotes (saved : Option String) (initialNotes : List Note) : JVal :=
  match saved with
  | none => notesToJVal initialNotes
  | some s =>
    if s.isEmpty then notesToJVal initialNotes
    else
      match parseJson s with
      | some v => v
      | none => notesToJVal initialNotes

/-- The component state right after mount: the raw hydrated collection and the
max-z-index counter, which `useState(100)` initializes to 100 regardless of
the snapshot (`Notes.tsx` lines 32–45). -/
structure RawBoard where
  collection : JVal
  maxZIndex : ℤ

/-- Hydration of the whole board state from the persisted snapshot. -/
def hydrateBoard (saved : Option String) (initialNotes : List Note) : RawBoard :=
  { collection := hydrateNotes saved initialNotes, maxZIndex := 100 }

/-- The save effect (`Notes.tsx` lines 59–62): after every notes change it
runs `localStorage.setItem("sticky-notes", JSON.stringify(notes))` with no
surrounding try/catch.  `stringifyFn` and `setItem` model the runtime's
serializer and storage write, either of which may throw (`Except.error`); an
`Except.error` result means the exception escapes the effect uncaught.  (The
`onNotesChange` callback would run only after a successful write.) -/
def saveEffect (stringifyFn : List Note → Except String String)
    (setItem : String → String → Except String Unit)
    (notes : List Note) : Except String Unit := do
  let payload ← stringifyFn notes
  setItem "sticky-notes" payload

/-- One mutation followed by its save effect: the in-memory state becomes
`applyOp b op` via the state setter before the effect runs, and the effect's
outcome is reported alongside it. -/
def applyAndSave (b : Board) (op : Op)
    (stringifyFn : List Note → Except String String)
    (setItem : String → String → Except String Unit) : Board × Except String Unit :=
  let b' := applyOp b op
  (b', saveEffect stringifyFn setItem b'.notes)

/-! ### Helper lemmas -/

/-- Mapping a function that fixes every element of a list is the identity. -/
theorem map_eq_self_of {α : Type} (l : List α) (f : α → α) (h : ∀ a ∈ l, f a = a) :
    l.map f = l := by
  induction l with
  | nil => rfl
  | cons a t ih =>
    simp only [List.map_cons, h a (List.mem_cons_self a t)]
    rw [ih (fun x hx => h x (List.mem_cons_of_mem a hx))]

/-- The palette pick is a palette member whenever the random draw is in
`[0, 1)`, the range of `Math.random()`. -/
theorem pickColor_mem (r : ℚ) (h0 : 0 ≤ r) (h1 : r < 1) : pickColor r ∈ COLORS := by
  unfold pickColor
  have hlen : (COLORS.length : ℚ) = 8 := by norm_num [COLORS]
  have hf0 : 0 ≤ Int.floor (r * (COLORS.length : ℚ)) := by
    apply Int.floor_nonneg.mpr
    positivity
  have hf8 : Int.floor (r * (COLORS.length : ℚ)) < 8 := by
    rw [Int.floor_lt, hlen]
    push_cast
    nlinarith
  have hidx : (Int.floor (r * (COLORS.length : ℚ))).toNat < COLORS.length := by
    have h8 : (8 : ℕ) = COLORS.length := by norm_num [COLORS]
    omega
  rw [List.getD_eq_getElem COLORS "" hidx]
  exact List.getElem_mem hidx

/-! ### C1 — creating a note

The claim quantifies over every board state, but states reachable through
hydration can hold notes whose z-index exceeds the counter (the counter always
restarts at 100), and there the new note's z-index `maxZIndex + 1` is not
above every existing note.  Under the intended counter invariant every part of
the claim holds. -/

/-- A note as it can exist right after hydrating a snapshot from a previous
session: z-index 103 persisted, while the counter restarts at 100. -/
def zStaleNote : Note :=
  { id := "9", content := "stale", x := 0, y := 0, width := 200, height := 200,
    color := "#FFE066", zIndex := 500 }

/-- A board whose counter (100) is below an existing note's z-index. -/
def zStaleBoard : Board := { notes := [zStaleNote], maxZIndex := 100 }

/-- C1 counterexample: on a board holding a note with z-index 500 and counter
100 (as arises after hydration), the appended note's z-index (101) is not
strictly greater than every existing note's z-index, refuting the claim as
stated for arbitrary board states. -/
theorem addNote_zindex_cex :
    (addNote zStaleBoard 7 0 0 0).notes
        = zStaleBoard.notes ++ [(addNote zStaleBoard 7 0 0 0).notes.getLastD zStaleNote]
    ∧ ¬ ∀ n ∈ zStaleBoard.notes,
        n.zIndex < ((addNote zStaleBoard 7 0 0 0).notes.getLastD zStaleNote).zIndex := by
  refine ⟨rfl, ?_⟩
  intro h
  have h5 := h zStaleNote (by simp [zStaleBoard])
  rw [show ((addNote zStaleBoard 7 0 0 0).notes.getLastD zStaleNote).zIndex = 101 from rfl,
      show zStaleNote.zIndex = 500 from rfl] at h5
  omega

/-- C1 (amended): on every board satisfying the counter invariant
(`maxZIndex` at least every note's z-index), and for `Math.random()` draws in
`[0, 1)`, `addNote` appends exactly one note, positioned in `[0,300) × [0,200)`,
with the default 200×200 size, a palette color, and a z-index strictly greater
than every existing note's; the counter is incremented.  The operation is a
total function, so it never fails. -/
theorem addNote_spec (b : Board) (now : ℕ) (r1 r2 r3 : ℚ)
    (hinv : ∀ n ∈ b.notes, n.zIndex ≤ b.maxZIndex)
    (h1l : 0 ≤ r1) (h1u : r1 < 1) (h2l : 0 ≤ r2) (h2u : r2 < 1)
    (h3l : 0 ≤ r3) (h3u : r3 < 1) :
    ∃ newNote : Note,
      (addNote b now r1 r2 r3).notes = b.notes ++ [newNote]
      ∧ 0 ≤ newNote.x ∧ newNote.x < 300
      ∧ 0 ≤ newNote.y ∧ newNote.y < 200
      ∧ newNote.width = 200 ∧ newNote.height = 200
      ∧ newNote.color ∈ COLORS
      ∧ (∀ n ∈ b.notes, n.zIndex < newNote.zIndex)
      ∧ (addNote b now r1 r2 r3).maxZIndex = b.maxZIndex + 1 := by
  refine ⟨{ id := toString now, content := "New note...", x := r1 * 300, y := r2 * 200,
            width := 200, height := 200, color := pickColor r3, zIndex := b.maxZIndex + 1 },
          rfl, ?_, ?_, ?_, ?_, rfl, rfl, pickColor_mem r3 h3l h3u, ?_, rfl⟩
  · show (0 : ℚ) ≤ r1 * 300
    positivity
  · show r1 * 300 < 300
    nlinarith
  · show (0 : ℚ) ≤ r2 * 200
    positivity
  · show r2 * 200 < 200
    nlinarith
  · intro n hn
    show n.zIndex < b.maxZIndex + 1
    have := hinv n hn
    omega

/-- C1 witness: the amended theorem applied to the empty board with counter
100 and draws of one half. -/
theorem addNote_spec_witness :
    ∃ newNote : Note,
      (addNote ⟨[], 100⟩ 0 (1/2) (1/2) (1/2)).notes = ([] : List Note) ++ [newNote]
      ∧ 0 ≤ newNote.x ∧ newNote.x < 300
      ∧ 0 ≤ newNote.y ∧ newNote.y < 200
      ∧ newNote.width = 200 ∧ newNote.height = 200
      ∧ newNote.color ∈ COLORS
      ∧ (∀ n ∈ (⟨[], 100⟩ : Board).notes, n.zIndex < newNote.zIndex)
      ∧ (addNote ⟨[], 100⟩ 0 (1/2) (1/2) (1/2)).maxZIndex = (⟨[], 100⟩ : Board).maxZIndex + 1 :=
  addNote_spec ⟨[], 100⟩ 0 (1/2) (1/2) (1/2) (by intro n hn; cases hn)
    (by norm_num) (by norm_num) (by norm_num) (by norm_num) (by norm_num) (by norm_num)

/-! ### C5 — drag move clamps to non-negative coordinates -/

/-- C5: while a drag is active (`isDragging` set and a dragged id recorded)
and the container rectangle is available, a drag-move event sets the dragged
note's position to pointer minus container origin minus grab offset, clamped
componentwise with `Math.max(0, ·)` — hence never negative — and every note
with a different id is left in the collection unchanged. -/
theorem handleMouseMove_clamps (ds : DragState) (nid : String)
    (left top clientX clientY : ℚ) (notes : List Note)
    (hdrag : ds.isDragging = true) (hnote : ds.noteId = some nid) :
    (∀ n ∈ handleMouseMove ds (some (left, top)) clientX clientY notes,
        n.id = nid →
          n.x = max 0 (clientX - left - ds.offset.1)
          ∧ n.y = max 0 (clientY - top - ds.offset.2)
          ∧ 0 ≤ n.x ∧ 0 ≤ n.y)
    ∧ (∀ n ∈ notes, n.id ≠ nid →
        n ∈ handleMouseMove ds (some (left, top)) clientX clientY notes)
    ∧ (∀ n ∈ handleMouseMove ds (some (left, top)) clientX clientY notes,
        n.id ≠ nid → n ∈ notes)
    ∧ (handleMouseMove ds (some (left, top)) clientX clientY notes).length
        = notes.length := by
  unfold handleMouseMove
  rw [hdrag, hnote]
  simp only [Bool.true_eq_false, if_false]
  refine ⟨?_, ?_, ?_, by simp⟩
  · intro n hn hid
    obtain ⟨m, hm, rfl⟩ := List.mem_map.mp hn
    by_cases hmi : m.id = nid
    · rw [if_pos hmi]
      exact ⟨rfl, rfl, le_max_left 0 _, le_max_left 0 _⟩
    · rw [if_neg hmi] at hid ⊢
      exact absurd hid hmi
  · intro n hn hid
    exact List.mem_map.mpr ⟨n, hn, by rw [if_neg hid]⟩
  · intro n hn hid
    obtain ⟨m, hm, rfl⟩ := List.mem_map.mp hn
    by_cases hmi : m.id = nid
    · rw [if_pos hmi] at hid
      simp at hid
      exact absurd hmi hid
    · rwa [if_neg hmi]

/-- A note at (50, 50), as in the specification's drag scenario. -/
def c5Note : Note :=
  { id := "a", content := "", x := 50, y := 50, width := 200, height := 200,
    color := "#FFE066", zIndex := 101 }

/-- An active drag of that note with zero grab offset. -/
def c5Drag : DragState := { isDragging := true, noteId := some "a", offset := (0, 0) }

/-- C5 witness: the spec scenario — the note grabbed at (50, 50) with the
pointer moved 100 left and 100 up (pointer at (-50, -50)) ends clamped at
(0, 0), not negative. -/
theorem handleMouseMove_clamps_witness :
    c5Drag.isDragging = true
    ∧ ∀ n ∈ handleMouseMove c5Drag (some (0, 0)) (-50) (-50) [c5Note],
        n.id = "a" →
          n.x = max 0 (-50 - 0 - c5Drag.offset.1)
          ∧ n.y = max 0 (-50 - 0 - c5Drag.offset.2)
          ∧ 0 ≤ n.x ∧ 0 ≤ n.y :=
  ⟨rfl, (handleMouseMove_clamps c5Drag "a" 0 0 (-50) (-50) [c5Note] rfl rfl).1⟩

/-! ### C8 — operations on a missing id are no-ops -/

/-- C8: when no note carries the given id, delete, edit-content and set-color
all return the board unchanged; all three are total functions, so no error is
surfaced. -/
theorem missing_id_noop (b : Board) (id content color : String)
    (h : ∀ n ∈ b.notes, n.id ≠ id) :
    deleteNote b id = b
    ∧ updateNoteContent b id content = b
    ∧ updateNoteColor b id color = b := by
  refine ⟨?_, ?_, ?_⟩
  · show ({ b with notes := b.notes.filter (fun note => note.id ≠ id) } : Board) = b
    have hf : b.notes.filter (fun note => note.id ≠ id) = b.notes := by
      apply List.filter_eq_self.mpr
      intro a ha
      simpa using h a ha
    rw [hf]
  · show ({ b with notes := b.notes.map _ } : Board) = b
    have hm := map_eq_self_of b.notes
      (fun note => if note.id = id then { note with content := content } else note)
      (fun a ha => if_neg (h a ha))
    rw [hm]
  · show ({ b with notes := b.notes.map _ } : Board) = b
    have hm := map_eq_self_of b.notes
      (fun note => if note.id = id then { note with color := color } else note)
      (fun a ha => if_neg (h a ha))
    rw [hm]

/-- A one-note board used to instantiate the missing-id no-op theorem. -/
def c8Board : Board :=
  { notes := [{ id := "1", content := "", x := 0, y := 0, width := 200, height := 200,
                color := "#FFE066", zIndex := 101 }],
    maxZIndex := 101 }

/-- C8 witness: deleting, editing or recoloring id "2", absent from the
one-note board, leaves it unchanged. -/
theorem missing_id_noop_witness :
    (∀ n ∈ c8Board.notes, n.id ≠ "2")
    ∧ (deleteNote c8Board "2" = c8Board
       ∧ updateNoteContent c8Board "2" "text" = c8Board
       ∧ updateNoteColor c8Board "2" "#FF6B6B" = c8Board) :=
  ⟨by decide, missing_id_noop c8Board "2" "text" "#FF6B6B" (by decide)⟩

/-! ### C4 — bring to front

As with C1, the claim quantifies over every board state with the id present,
but on hydrated states whose notes carry z-indexes above the restarted
counter, `bringToFront` assigns `maxZIndex + 1`, which need not beat them.
Under the counter invariant (plus the spec's own id-uniqueness invariant,
needed for "strictly the maximum" to be well-posed) all parts hold. -/

/-- Projecting ids through an id-preserving per-note update leaves the id
list unchanged. -/
theorem map_comp_id_preserving {f : Note → Note} (hf : ∀ n, (f n).id = n.id)
    (l : List Note) : (l.map f).map Note.id = l.map Note.id := by
  rw [List.map_map]
  induction l with
  | nil => rfl
  | cons a t ih => simp only [List.map_cons, Function.comp_apply, hf, ih]

/-- The per-note update of `bringToFront` preserves ids. -/
theorem bringToFront_update_id (id : String) (z : ℤ) (n : Note) :
    ((if n.id = id then { n with zIndex := z } else n) : Note).id = n.id := by
  by_cases h : n.id = id
  · rw [if_pos h]
  · rw [if_neg h]

/-- `bringToFront` does not change the list of ids. -/
theorem bringToFront_ids (b : Board) (id : String) :
    (bringToFront b id).notes.map Note.id = b.notes.map Note.id :=
  map_comp_id_preserving (bringToFront_update_id id (b.maxZIndex + 1)) b.notes

/-- Core facts about one `bringToFront` call on a board satisfying the
counter invariant with unique ids and the id present: the counter advances,
the length is unchanged, the matching note gets z-index `maxZIndex + 1` and
is strictly above every other note, and all other notes are unchanged. -/
theorem bringToFront_core (b : Board) (id : String)
    (hnd : (b.notes.map Note.id).Nodup)
    (hinv : ∀ n ∈ b.notes, n.zIndex ≤ b.maxZIndex)
    (hmem : id ∈ b.notes.map Note.id) :
    (bringToFront b id).maxZIndex = b.maxZIndex + 1
    ∧ (bringToFront b id).notes.length = b.notes.length
    ∧ (∃ n ∈ (bringToFront b id).notes, n.id = id ∧ n.zIndex = b.maxZIndex + 1
        ∧ ∀ m ∈ (bringToFront b id).notes, m ≠ n → m.zIndex < n.zIndex)
    ∧ (∀ m ∈ b.notes, m.id ≠ id → m ∈ (bringToFront b id).notes)
    ∧ (∀ m ∈ (bringToFront b id).notes, m.id ≠ id → m ∈ b.notes) := by
  obtain ⟨orig, horig, hoid⟩ := List.mem_map.mp hmem
  refine ⟨rfl, by simp [bringToFront], ?_, ?_, ?_⟩
  · refine ⟨{ orig with zIndex := b.maxZIndex + 1 }, ?_, hoid, rfl, ?_⟩
    · apply List.mem_map.mpr
      exact ⟨orig, horig, by rw [if_pos hoid]⟩
    · intro m hm hne
      obtain ⟨m0, hm0, rfl⟩ := List.mem_map.mp hm
      by_cases h0 : m0.id = id
      · exfalso
        apply hne
        rw [if_pos h0]
        have : m0 = orig :=
          List.inj_on_of_nodup_map hnd hm0 horig (by rw [h0, hoid])
        rw [this]
      · rw [if_neg h0]
        show m0.zIndex < b.maxZIndex + 1
        have := hinv m0 hm0
        omega
  · intro m hm hid
    exact List.mem_map.mpr ⟨m, hm, by rw [if_neg hid]⟩
  · intro m hm hid
    obtain ⟨m0, hm0, rfl⟩ := List.mem_map.mp hm
    by_cases h0 : m0.id = id
    · rw [if_pos h0] at hid
      exact absurd h0 hid
    · rwa [if_neg h0]

/-- The counter invariant is preserved by `bringToFront`. -/
theorem bringToFront_inv (b : Board) (id : String)
    (hinv : ∀ n ∈ b.notes, n.zIndex ≤ b.maxZIndex) :
    ∀ n ∈ (bringToFront b id).notes, n.zIndex ≤ (bringToFront b id).maxZIndex := by
  intro n hn
  obtain ⟨m0, hm0, rfl⟩ := List.mem_map.mp hn
  show _ ≤ b.maxZIndex + 1
  by_cases h0 : m0.id = id
  · rw [if_pos h0]
  · rw [if_neg h0]
    have := hinv m0 hm0
    omega

/-- C4 (amended): on every board satisfying the counter invariant and the
id-uniqueness invariant, with the id present, `bringToFront(id)` sets that
note's z-index to `maxZIndex + 1` — strictly the maximum across the
collection — leaves every other note unchanged, advances the counter, and a
second `bringToFront` of the same id keeps that note's z-index the strict
maximum. -/
theorem bringToFront_strict_max (b : Board) (id : String)
    (hnd : (b.notes.map Note.id).Nodup)
    (hinv : ∀ n ∈ b.notes, n.zIndex ≤ b.maxZIndex)
    (hmem : id ∈ b.notes.map Note.id) :
    (bringToFront b id).maxZIndex = b.maxZIndex + 1
    ∧ (bringToFront b id).notes.length = b.notes.length
    ∧ (∃ n ∈ (bringToFront b id).notes, n.id = id ∧ n.zIndex = b.maxZIndex + 1
        ∧ ∀ m ∈ (bringToFront b id).notes, m ≠ n → m.zIndex < n.zIndex)
    ∧ (∀ m ∈ b.notes, m.id ≠ id → m ∈ (bringToFront b id).notes)
    ∧ (∀ m ∈ (bringToFront b id).notes, m.id ≠ id → m ∈ b.notes)
    ∧ (∃ n ∈ (bringToFront (bringToFront b id) id).notes, n.id = id
        ∧ ∀ m ∈ (bringToFront (bringToFront b id) id).notes, m ≠ n → m.zIndex < n.zIndex) := by
  obtain ⟨h1, h2, h3, h4, h5⟩ := bringToFront_core b id hnd hinv hmem
  have hnd' : ((bringToFront b id).notes.map Note.id).Nodup := by
    rw [bringToFront_ids]
    exact hnd
  have hmem' : id ∈ (bringToFront b id).notes.map Note.id := by
    rw [bringToFront_ids]
    exact hmem
  obtain ⟨_, _, h3', _, _⟩ :=
    bringToFront_core (bringToFront b id) id hnd' (bringToFront_inv b id hinv) hmem'
  obtain ⟨n, hn, hnid, _, hmax⟩ := h3'
  exact ⟨h1, h2, h3, h4, h5, n, hn, hnid, hmax⟩

/-- A hydrated-style board refuting C4 as stated: note "a" keeps z-index 500
from a previous session while the counter restarted at 100. -/
def c4Board : Board :=
  { notes := [{ id := "a", content := "", x := 0, y := 0, width := 200, height := 200,
                color := "#FFE066", zIndex := 500 },
              { id := "b", content := "", x := 0, y := 0, width := 200, height := 200,
                color := "#FF6B6B", zIndex := 100 }],
    maxZIndex := 100 }

/-- C4 counterexample: bringing "b" to front on `c4Board` gives it z-index
101, which is not strictly the maximum — note "a" still has 500 — refuting
the claim as stated for arbitrary board states with the id present. -/
theorem bringToFront_cex :
    "b" ∈ c4Board.notes.map Note.id
    ∧ (bringToFront c4Board "b").notes.map Note.zIndex = [500, 101]
    ∧ ¬ ∀ n ∈ (bringToFront c4Board "b").notes, n.id = "b" →
        ∀ m ∈ (bringToFront c4Board "b").notes, m.id ≠ "b" → m.zIndex < n.zIndex := by
  decide

/-- A clean two-note board (fresh session) for instantiating C4. -/
def c4FreshBoard : Board :=
  { notes := [{ id := "A", content := "", x := 0, y := 0, width := 200, height := 200,
                color := "#FFE066", zIndex := 101 },
              { id := "B", content := "", x := 0, y := 0, width := 200, height := 200,
                color := "#FF6B6B", zIndex := 102 }],
    maxZIndex := 102 }

/-- C4 witness: the amended theorem applied to the spec's scenario board —
notes A (z=101), B (z=102), counter 102 — bringing A to front. -/
theorem bringToFront_strict_max_witness :
    (c4FreshBoard.notes.map Note.id).Nodup
    ∧ ((bringToFront c4FreshBoard "A").maxZIndex = c4FreshBoard.maxZIndex + 1
       ∧ (bringToFront c4FreshBoard "A").notes.length = c4FreshBoard.notes.length
       ∧ (∃ n ∈ (bringToFront c4FreshBoard "A").notes, n.id = "A"
            ∧ n.zIndex = c4FreshBoard.maxZIndex + 1
            ∧ ∀ m ∈ (bringToFront c4FreshBoard "A").notes, m ≠ n → m.zIndex < n.zIndex)
       ∧ (∀ m ∈ c4FreshBoard.notes, m.id ≠ "A" → m ∈ (bringToFront c4FreshBoard "A").notes)
       ∧ (∀ m ∈ (bringToFront c4FreshBoard "A").notes, m.id ≠ "A" → m ∈ c4FreshBoard.notes)
       ∧ (∃ n ∈ (bringToFront (bringToFront c4FreshBoard "A") "A").notes, n.id = "A"
            ∧ ∀ m ∈ (bringToFront (bringToFront c4FreshBoard "A") "A").notes,
                m ≠ n → m.zIndex < n.zIndex)) :=
  ⟨by decide, bringToFront_strict_max c4FreshBoard "A" (by decide) (by decide) (by decide)⟩

/-! ### C3 — snapshot round-trip, and C2 — the counter after hydration -/

/-- Decoding the JSON object of a note recovers the note exactly. -/
theorem noteFromJVal_noteToJVal (n : Note) : noteFromJVal (noteToJVal n) = some n := rfl

/-- Decoding the JSON array of a note collection recovers the collection:
every id, content, x, y, width, height, color and z-index round-trips. -/
theorem notesFromJVal_notesToJVal (ns : List Note) :
    notesFromJVal (notesToJVal ns) = some ns := by
  show notesFromList (ns.map noteToJVal) = some ns
  induction ns with
  | nil => rfl
  | cons n t ih =>
    show (match noteFromJVal (noteToJVal n), notesFromList (t.map noteToJVal) with
          | some n, some ns => some (n :: ns)
          | _, _ => none) = some (n :: t)
    rw [noteFromJVal_noteToJVal, ih]

/-- C3 (amended): hydrating from any stored string that parses to the
serialized snapshot of a collection `ns` (which is what
`JSON.stringify(notes)` writes on every mutation) yields exactly that JSON
value as the collection, and decoding it recovers every note field of `ns`
— but the max-z-index counter of the hydrated board is always 100, so the
full board state (in particular a counter that was above 100) is not
re-derivable from the snapshot. -/
theorem snapshot_roundtrip (ns init : List Note) (s : String)
    (hne : s.isEmpty = false) (hs : parseJson s = some (notesToJVal ns)) :
    (hydrateBoard (some s) init).collection = notesToJVal ns
    ∧ notesFromJVal (hydrateBoard (some s) init).collection = some ns
    ∧ (hydrateBoard (some s) init).maxZIndex = 100 := by
  have hcol : (hydrateBoard (some s) init).collection = notesToJVal ns := by
    show hydrateNotes (some s) init = notesToJVal ns
    unfold hydrateNotes
    simp only [hne, Bool.false_eq_true, if_false, hs]
  exact ⟨hcol, by rw [hcol]; exact notesFromJVal_notesToJVal ns, rfl⟩

/-- The note of a board whose counter reached 103 in a previous session. -/
def c3Note : Note :=
  { id := "7", content := "x", x := 1, y := 2, width := 200, height := 200,
    color := "#4ECDC4", zIndex := 103 }

/-- That previous-session board: one note at z-index 103, counter 103. -/
def c3Board : Board := { notes := [c3Note], maxZIndex := 103 }

/-- The serialized snapshot string of `c3Board`'s collection, as
`JSON.stringify` writes it. -/
def c3Snapshot : String :=
  "[\x7b\"id\":\"7\",\"content\":\"x\",\"x\":1,\"y\":2,\"width\":200,\"height\":200,\"color\":\"#4ECDC4\",\"zIndex\":103\x7d]"

/-- C3 counterexample: hydrating a fresh board from the serialized snapshot
of `c3Board` reproduces every note (the collection decodes back to the same
single note) but not an equivalent board: the max-z-index counter comes back
as 100, not the 103 the serialized board had, so the full board state is not
re-derivable from the snapshot. -/
theorem snapshot_tracker_cex :
    notesFromJVal (hydrateBoard (some c3Snapshot) []).collection = some c3Board.notes
    ∧ (hydrateBoard (some c3Snapshot) []).maxZIndex ≠ c3Board.maxZIndex := by
  constructor
  · decide
  · intro h
    have h100 : (hydrateBoard (some c3Snapshot) []).maxZIndex = 100 := rfl
    have h103 : c3Board.maxZIndex = 103 := rfl
    rw [h100, h103] at h
    exact absurd h (by decide)

/-- C3 witness: the amended round-trip theorem applied to the empty
collection and its snapshot string. -/
theorem snapshot_roundtrip_witness :
    ("[]" : String).isEmpty = false
    ∧ ((hydrateBoard (some "[]") []).collection = notesToJVal []
       ∧ notesFromJVal (hydrateBoard (some "[]") []).collection = some []
       ∧ (hydrateBoard (some "[]") []).maxZIndex = 100) :=
  ⟨rfl, snapshot_roundtrip [] [] "[]" rfl rfl⟩

/-- The note stored in the snapshot that exhibits the C2 violation: z-index
103, persisted by a previous session. -/
def c2Note : Note :=
  { id := "1", content := "hi", x := 0, y := 0, width := 200, height := 200,
    color := "#FFE066", zIndex := 103 }

/-- A persisted snapshot holding a note with z-index 103, exactly as the
save effect writes after three creates and no reload. -/
def c2Snapshot : String :=
  "[\x7b\"id\":\"1\",\"content\":\"hi\",\"x\":0,\"y\":0,\"width\":200,\"height\":200,\"color\":\"#FFE066\",\"zIndex\":103\x7d]"

/-- C2 (code bug, demonstration): immediately after hydrating from a
snapshot whose note has z-index 103, the board's max-z-index counter is 100
— `useState(100)` never restores it from the snapshot — so the counter is
NOT ≥ the highest z-index among the notes in the collection, violating the
claimed invariant at a state reachable by ordinary use (create notes, then
reload). -/
theorem hydration_tracker_bug :
    notesFromJVal (hydrateBoard (some c2Snapshot) []).collection = some [c2Note]
    ∧ (hydrateBoard (some c2Snapshot) []).maxZIndex = 100
    ∧ ¬ ∀ n ∈ [c2Note], n.zIndex ≤ (hydrateBoard (some c2Snapshot) []).maxZIndex := by
  refine ⟨by decide, rfl, ?_⟩
  intro h
  have h1 := h c2Note (List.mem_singleton.mpr rfl)
  rw [show (hydrateBoard (some c2Snapshot) []).maxZIndex = 100 from rfl,
      show c2Note.zIndex = 103 from rfl] at h1
  omega

/-! ### C10 — hydration validates nothing beyond JSON parseability -/

/-- C10: the hydration initializer performs no validation beyond
`JSON.parse`: every non-empty stored string that parses becomes the
collection verbatim (the initial notes are ignored), including values that
are not arrays of note records, such as `"null"` (collection `null`) and
`"\x7b\x7d"` (collection an empty object); only an absent entry, an empty
stored string, or a parse failure falls back to the caller-supplied initial
notes. -/
theorem hydration_unvalidated :
    (∀ (s : String) (v : JVal) (init : List Note),
        s.isEmpty = false → parseJson s = some v → hydrateNotes (some s) init = v)
    ∧ (∀ init : List Note, hydrateNotes none init = notesToJVal init)
    ∧ (∀ init : List Note, hydrateNotes (some "") init = notesToJVal init)
    ∧ (∀ (s : String) (init : List Note),
        s.isEmpty = false → parseJson s = none → hydrateNotes (some s) init = notesToJVal init)
    ∧ (∀ init : List Note, hydrateNotes (some "null") init = JVal.null)
    ∧ (∀ init : List Note, hydrateNotes (some "\x7b\x7d") init = JVal.obj []) := by
  refine ⟨?_, fun _ => rfl, fun _ => rfl, ?_, fun _ => rfl, fun _ => rfl⟩
  · intro s v init hne hs
    unfold hydrateNotes
    simp only [hne, Bool.false_eq_true, if_false, hs]
  · intro s init hne hs
    unfold hydrateNotes
    simp only [hne, Bool.false_eq_true, if_false, hs]

/-- C10 witness: the stored string "[1]" is not a well-formed note array,
yet hydration adopts its parsed value as the collection. -/
theorem hydration_unvalidated_witness :
    ("[1]" : String).isEmpty = false
    ∧ hydrateNotes (some "[1]") [] = JVal.arr [JVal.num 1] :=
  ⟨rfl, hydration_unvalidated.1 "[1]" (JVal.arr [JVal.num 1]) [] rfl rfl⟩

/-! ### C9 — a failing snapshot write is not swallowed -/

/-- A board with one note, about to be mutated. -/
def c9Board : Board :=
  { notes := [{ id := "n", content := "c", x := 3, y := 4, width := 200, height := 200,
                color := "#DDA0DD", zIndex := 101 }],
    maxZIndex := 101 }

/-- A runtime serializer that succeeds, producing the empty-array payload
for the cleared collection. -/
def c9OkStringify : List Note → Except String String := fun _ => Except.ok "[]"

/-- A storage write that throws, as `localStorage.setItem` does when the
quota is exceeded. -/
def c9FailSetItem : String → String → Except String Unit :=
  fun _ _ => Except.error "QuotaExceededError"

/-- C9 counterexample: with a storage write that throws, the save effect
after a clear-all mutation evaluates to that error — the exception escapes
the effect (there is no try/catch around `localStorage.setItem`), refuting
the claim that the failure is swallowed; the in-memory collection does
retain the mutated (cleared) state. -/
theorem save_failure_cex :
    (applyAndSave c9Board Op.clearAll c9OkStringify c9FailSetItem).1.notes = []
    ∧ (applyAndSave c9Board Op.clearAll c9OkStringify c9FailSetItem).2
        = Except.error "QuotaExceededError" :=
  ⟨rfl, rfl⟩

/-- C9 (amended): the in-memory collection always holds the mutated state
after the state setter runs, but a serialization failure or a storage-write
failure during the save effect is NOT swallowed: the error propagates out of
the effect unchanged (and the change callback, which follows the write, is
skipped). -/
theorem save_failure_propagates (b : Board) (op : Op)
    (stringifyFn : List Note → Except String String)
    (setItem : String → String → Except String Unit) :
    (applyAndSave b op stringifyFn setItem).1 = applyOp b op
    ∧ (∀ e, stringifyFn (applyOp b op).notes = Except.error e →
        (applyAndSave b op stringifyFn setItem).2 = Except.error e)
    ∧ (∀ s e, stringifyFn (applyOp b op).notes = Except.ok s →
        setItem "sticky-notes" s = Except.error e →
        (applyAndSave b op stringifyFn setItem).2 = Except.error e) := by
  refine ⟨rfl, ?_, ?_⟩
  · intro e he
    show saveEffect stringifyFn setItem (applyOp b op).notes = Except.error e
    unfold saveEffect
    rw [he]
    rfl
  · intro s e hok herr
    show saveEffect stringifyFn setItem (applyOp b op).notes = Except.error e
    unfold saveEffect
    rw [hok]
    exact herr

/-- C9 witness: the amended theorem applied to the clear-all mutation with a
successful serializer and a quota-exceeded storage write. -/
theorem save_failure_propagates_witness :
    c9OkStringify (applyOp c9Board Op.clearAll).notes = Except.ok "[]"
    ∧ c9FailSetItem "sticky-notes" "[]" = Except.error "QuotaExceededError"
    ∧ (applyAndSave c9Board Op.clearAll c9OkStringify c9FailSetItem).2
        = Except.error "QuotaExceededError" :=
  ⟨rfl, rfl,
    (save_failure_propagates c9Board Op.clearAll c9OkStringify c9FailSetItem).2.2
      "[]" "QuotaExceededError" rfl rfl⟩

/-! ### C6 — uniqueness of note ids

Ids come from `Date.now().toString()`, so two creates within the same
millisecond produce the same id: uniqueness only holds when the drawn
timestamps are fresh. -/

/-- A drag move never changes the list of ids. -/
theorem ids_handleMouseMove (ds : DragState) (rect : Option (ℚ × ℚ))
    (cx cy : ℚ) (notes : List Note) :
    (handleMouseMove ds rect cx cy notes).map Note.id = notes.map Note.id := by
  unfold handleMouseMove
  by_cases hd : ds.isDragging = false
  · rw [if_pos hd]
  · rw [if_neg hd]
    cases ds.noteId with
    | none => rfl
    | some nid =>
      cases rect with
      | none => rfl
      | some lt =>
        obtain ⟨left, top⟩ := lt
        apply map_comp_id_preserving
        intro n
        by_cases h : n.id = nid
        · rw [if_pos h]
        · rw [if_neg h]

/-- The id list after one operation is a sublist of the previous id list
followed by the id the operation creates (if any). -/
theorem ids_applyOp_sublist (b : Board) (op : Op) :
    List.Sublist ((applyOp b op).notes.map Note.id)
      (b.notes.map Note.id ++ createdIdList [op]) := by
  cases op with
  | add now r1 r2 r3 =>
    rw [show (applyOp b (Op.add now r1 r2 r3)).notes.map Note.id
          = b.notes.map Note.id ++ [toString now] by simp [applyOp, addNote]]
    exact List.Sublist.refl _
  | del id =>
    rw [show createdIdList [Op.del id] = [] from rfl, List.append_nil]
    exact List.Sublist.map Note.id (List.filter_sublist b.notes)
  | editContent id content =>
    rw [show createdIdList [Op.editContent id content] = [] from rfl, List.append_nil,
        show (applyOp b (Op.editContent id content)).notes.map Note.id = b.notes.map Note.id
          from map_comp_id_preserving
            (fun n => by by_cases h : n.id = id
                         · rw [if_pos h]
                         · rw [if_neg h]) b.notes]
  | setColor id color =>
    rw [show createdIdList [Op.setColor id color] = [] from rfl, List.append_nil,
        show (applyOp b (Op.setColor id color)).notes.map Note.id = b.notes.map Note.id
          from map_comp_id_preserving
            (fun n => by by_cases h : n.id = id
                         · rw [if_pos h]
                         · rw [if_neg h]) b.notes]
  | toFront id =>
    rw [show createdIdList [Op.toFront id] = [] from rfl, List.append_nil]
    rw [show (applyOp b (Op.toFront id)).notes.map Note.id = b.notes.map Note.id
          from bringToFront_ids b id]
  | clearAll =>
    exact List.nil_sublist _
  | dragMove ds rect cx cy =>
    rw [show createdIdList [Op.dragMove ds rect cx cy] = [] from rfl, List.append_nil,
        show (applyOp b (Op.dragMove ds rect cx cy)).notes.map Note.id = b.notes.map Note.id
          from ids_handleMouseMove ds rect cx cy b.notes]

/-- Splitting the created-id list at the first operation. -/
theorem createdIdList_cons (op : Op) (rest : List Op) :
    createdIdList (op :: rest) = createdIdList [op] ++ createdIdList rest := by
  cases op <;> rfl

/-- The ids on the board after a run are among the initial ids followed by
the ids the run created, in order. -/
theorem ids_run_sublist (ops : List Op) : ∀ b : Board,
    List.Sublist ((run b ops).notes.map Note.id)
      (b.notes.map Note.id ++ createdIdList ops) := by
  induction ops with
  | nil =>
    intro b
    rw [show createdIdList [] = [] from rfl, List.append_nil]
    exact List.Sublist.refl _
  | cons op rest ih =>
    intro b
    have h1 := ih (applyOp b op)
    have h2 := (ids_applyOp_sublist b op).append_right (createdIdList rest)
    have h3 := h1.trans h2
    rw [List.append_assoc, ← createdIdList_cons] at h3
    exact h3

/-- C6 (amended): starting from the empty board, after any sequence of
operations whose creates draw pairwise-distinct `Date.now()` ids, all note
ids are pairwise distinct; and the spec scenario holds: three creates on the
empty board (counter 100) with distinct timestamps yield three notes with
distinct ids and z-indexes 101, 102, 103. -/
theorem ids_unique_of_fresh :
    (∀ ops : List Op, (createdIdList ops).Nodup →
        ((run ⟨[], 100⟩ ops).notes.map Note.id).Nodup)
    ∧ (run ⟨[], 100⟩ [Op.add 1 0 0 0, Op.add 2 0 0 0, Op.add 3 0 0 0]).notes.length = 3
    ∧ ((run ⟨[], 100⟩ [Op.add 1 0 0 0, Op.add 2 0 0 0, Op.add 3 0 0 0]).notes.map Note.id).Nodup
    ∧ (run ⟨[], 100⟩ [Op.add 1 0 0 0, Op.add 2 0 0 0, Op.add 3 0 0 0]).notes.map Note.zIndex
        = [101, 102, 103] := by
  refine ⟨?_, by decide, by decide, by decide⟩
  intro ops h
  exact List.Nodup.sublist (ids_run_sublist ops ⟨[], 100⟩) h

/-- C6 counterexample: two creates drawing the same `Date.now()` value (the
same millisecond) produce two notes with the same id "5", refuting the claim
that ids are pairwise distinct after every operation sequence. -/
theorem duplicate_timestamp_cex :
    ¬ ((run ⟨[], 100⟩ [Op.add 5 0 0 0, Op.add 5 0 0 0]).notes.map Note.id).Nodup := by
  decide

/-- C6 witness: the amended theorem applied to two creates with distinct
timestamps. -/
theorem ids_unique_of_fresh_witness :
    (createdIdList [Op.add 1 0 0 0, Op.add 2 0 0 0]).Nodup
    ∧ ((run ⟨[], 100⟩ [Op.add 1 0 0 0, Op.add 2 0 0 0]).notes.map Note.id).Nodup :=
  ⟨by decide, ids_unique_of_fresh.1 [Op.add 1 0 0 0, Op.add 2 0 0 0] (by decide)⟩

/-! ### C7 — created minus deleted

Because `deleteNote` filters by id and a later create can reuse a deleted id
(`Date.now()` can repeat within a millisecond, and delete targets are
arbitrary strings), the set identity only holds when no id is created after
a delete of that same id — which is the case for every sequence reachable
through the UI with fresh timestamps. -/

/-- Orderedness condition on an operation pair: the second operation does not
create an id the first operation deletes. -/
def NoLaterCreate : Op → Op → Prop := fun a b =>
  ∀ (i : String) (now : ℕ) (r1 r2 r3 : ℚ),
    a = Op.del i → b = Op.add now r1 r2 r3 → toString now ≠ i

/-- Membership in the id list after a delete-style filter. -/
theorem mem_ids_filter (notes : List Note) (i x : String) :
    (x ∈ (notes.filter (fun n => n.id ≠ i)).map Note.id)
      ↔ (x ∈ notes.map Note.id ∧ x ≠ i) := by
  simp only [List.mem_map, List.mem_filter, decide_not, Bool.not_eq_eq_eq_not,
    Bool.not_true, decide_eq_false_iff_not]
  constructor
  · rintro ⟨n, ⟨hn, hni⟩, rfl⟩
    exact ⟨⟨n, hn, rfl⟩, hni⟩
  · rintro ⟨⟨n, hn, rfl⟩, hx⟩
    exact ⟨n, ⟨hn, hx⟩, rfl⟩

/-- Characterization of board ids after running creates and deletes, given
that no delete of an id precedes a create of the same id. -/
theorem mem_ids_run (ops : List Op) : ∀ (b : Board) (x : String),
    (∀ op ∈ ops, op.isCD = true) → List.Pairwise NoLaterCreate ops →
    (x ∈ (run b ops).notes.map Note.id ↔
      ((x ∈ b.notes.map Note.id ∨ x ∈ createdIdList ops) ∧ x ∉ deletedIdList ops)) := by
  induction ops with
  | nil =>
    intro b x _ _
    simp [run, createdIdList, deletedIdList]
  | cons op rest ih =>
    intro b x hcd hpw
    obtain ⟨hR, hpw'⟩ := List.pairwise_cons.mp hpw
    have hcd' : ∀ o ∈ rest, o.isCD = true := fun o ho => hcd o (List.mem_cons_of_mem _ ho)
    have hrun : run b (op :: rest) = run (applyOp b op) rest := rfl
    rw [hrun, ih (applyOp b op) x hcd' hpw']
    cases op with
    | add now r1 r2 r3 =>
      rw [show (applyOp b (Op.add now r1 r2 r3)).notes.map Note.id
            = b.notes.map Note.id ++ [toString now] by simp [applyOp, addNote]]
      rw [show createdIdList (Op.add now r1 r2 r3 :: rest)
            = toString now :: createdIdList rest from rfl]
      rw [show deletedIdList (Op.add now r1 r2 r3 :: rest) = deletedIdList rest from rfl]
      simp only [List.mem_append, List.mem_singleton, List.mem_cons]
      tauto
    | del i =>
      rw [show (applyOp b (Op.del i)).notes = b.notes.filter (fun n => n.id ≠ i) from rfl]
      rw [mem_ids_filter b.notes i x]
      rw [show createdIdList (Op.del i :: rest) = createdIdList rest from rfl]
      rw [show deletedIdList (Op.del i :: rest) = i :: deletedIdList rest from rfl]
      simp only [List.mem_cons]
      have hni : x ∈ createdIdList rest → x ≠ i := by
        intro hxc hxe
        simp only [createdIdList, List.mem_filterMap] at hxc
        obtain ⟨o, ho, hoe⟩ := hxc
        have hRo := hR o ho
        cases o with
        | add now r1 r2 r3 =>
          have hts : toString now = x := by
            simpa [Op.addedId] using hoe
          exact (hRo i now r1 r2 r3 rfl rfl) (by rw [hts, hxe])
        | del j => simp [Op.addedId] at hoe
        | editContent j c => simp [Op.addedId] at hoe
        | setColor j c => simp [Op.addedId] at hoe
        | toFront j => simp [Op.addedId] at hoe
        | clearAll => simp [Op.addedId] at hoe
        | dragMove ds rect cx cy => simp [Op.addedId] at hoe
      tauto
    | editContent j c =>
      have := hcd _ (List.mem_cons_self _ _)
      simp [Op.isCD] at this
    | setColor j c =>
      have := hcd _ (List.mem_cons_self _ _)
      simp [Op.isCD] at this
    | toFront j =>
      have := hcd _ (List.mem_cons_self _ _)
      simp [Op.isCD] at this
    | clearAll =>
      have := hcd _ (List.mem_cons_self _ _)
      simp [Op.isCD] at this
    | dragMove ds rect cx cy =>
      have := hcd _ (List.mem_cons_self _ _)
      simp [Op.isCD] at this

/-- C7 (amended): for every sequence of creates and deletes from the empty
board in which no id is created after a delete of that same id (true of all
UI-reachable sequences with fresh timestamps), the set of ids in the final
collection equals the set of created ids minus the set of deleted ids. -/
theorem creates_minus_deletes (ops : List Op)
    (hcd : ∀ op ∈ ops, op.isCD = true)
    (hpw : List.Pairwise NoLaterCreate ops) :
    ((run ⟨[], 100⟩ ops).notes.map Note.id).toFinset
      = createdIdSet ops \ deletedIdSet ops := by
  ext x
  rw [List.mem_toFinset, mem_ids_run ops ⟨[], 100⟩ x hcd hpw, Finset.mem_sdiff,
      createdIdSet, deletedIdSet, List.mem_toFinset, List.mem_toFinset]
  constructor
  · rintro ⟨h1 | h2, h3⟩
    · simp at h1
    · exact ⟨h2, h3⟩
  · rintro ⟨h2, h3⟩
    exact ⟨Or.inr h2, h3⟩

/-- C7 counterexample: the sequence delete "1" then create at timestamp 1
leaves id "1" on the board, while created-minus-deleted is empty — the claim
fails as stated for arbitrary create/delete sequences. -/
theorem delete_before_create_cex :
    ((run ⟨[], 100⟩ [Op.del "1", Op.add 1 0 0 0]).notes.map Note.id).toFinset
      ≠ createdIdSet [Op.del "1", Op.add 1 0 0 0]
          \ deletedIdSet [Op.del "1", Op.add 1 0 0 0] := by
  decide

/-- The create/delete sequence instantiating C7: create "1", create "2",
delete "1". -/
def c7Ops : List Op := [Op.add 1 0 0 0, Op.add 2 0 0 0, Op.del "1"]

/-- A create is never the first component of a violating pair. -/
theorem add_noLaterCreate (now : ℕ) (r1 r2 r3 : ℚ) (b : Op) :
    NoLaterCreate (Op.add now r1 r2 r3) b := by
  intro i now' r1' r2' r3' ha _
  exact Op.noConfusion ha

/-- C7 witness: the amended theorem applied to create "1", create "2",
delete "1" — the remaining id set is exactly the singleton of id "2". -/
theorem creates_minus_deletes_witness :
    (∀ op ∈ c7Ops, op.isCD = true)
    ∧ ((run ⟨[], 100⟩ c7Ops).notes.map Note.id).toFinset
        = createdIdSet c7Ops \ deletedIdSet c7Ops :=
  ⟨by decide,
   creates_minus_deletes c7Ops (by decide)
     (by
       refine List.Pairwise.cons ?_ (List.Pairwise.cons ?_ (List.pairwise_singleton _ _))
       · intro o _
         exact add_noLaterCreate 1 0 0 0 o
       · intro o _
         exact add_noLaterCreate 2 0 0 0 o)⟩

end StickyNotes
